import Mathlib

/-!
Verification of `dbs/helper_functions.py` from the AmpyFinBrad repository.

The retry executor `retry_with_backoff` is embedded as a pure function over
an explicit model of its effectful environment:

* the operation `func` is modelled as `op : Nat → Except ε α`, giving the
  outcome of the i-th invocation (0-based attempt index);
* the `isinstance(e, exceptions)` catch filter is `retryable : ε → Bool`
  (an exception NOT matched by the tuple propagates uncaught);
* `random.random()` is `rand : Nat → ℚ`, the value drawn at attempt i;
* `time.sleep` calls are recorded in a `sleeps` trace;
* log calls are recorded as `(sink, event)` pairs, where the sink models
  the `if logger: ... else: print(...)` branch on each log site.

The Python loop `attempt = 0; while attempt <= max_retries:` increments
`attempt` by exactly one per iteration, so it performs at most
`(max_retries + 1).toNat` iterations; the embedding passes this remaining
iteration count as `fuel` together with the current `attempt`, with the
invariant `fuel = max_retries + 1 - attempt`.  The source's test
`attempt == max_retries` is then exactly `fuel = 1`.
-/

/-- Where a log message was written: through the supplied logger object, or
through the `print` fallback (standard output). -/
inductive Sink where
  | logger
  | stdout
deriving DecidableEq, Repr

/-- A log call made by `retry_with_backoff`: the warning message of lines
58-63 (carrying the attempt index, the caught exception and the delay that
will be slept), or the terminal error message of lines 45-50 (carrying the
final exception). -/
inductive LogEvent (ε : Type) where
  | warning (attempt : Nat) (e : ε) (delay : ℚ)
  | error (e : ε)
deriving DecidableEq, Repr

/-- How a call of `retry_with_backoff` ends: `ok v` models `return func()`
succeeding, `raised e` models the exception `e` propagating out of the
function (either re-`raise`d on the last attempt or uncaught because it is
not an instance of `exceptions`), and `none` models falling off the end of
the `while` loop, which in Python returns `None`. -/
inductive RetryResult (ε α : Type) where
  | ok (v : α)
  | raised (e : ε)
  | none
deriving DecidableEq, Repr

/-- The observable behaviour of one call of `retry_with_backoff`: its final
result, how many times `func` was invoked, the successive arguments of
`time.sleep`, and the log calls in order. -/
structure RetryTrace (ε α : Type) where
  result : RetryResult ε α
  invocations : Nat
  sleeps : List ℚ
  logs : List (Sink × LogEvent ε)
deriving DecidableEq, Repr

/-- Line 53 of the source: `delay = min(max_delay, base_delay * (2**attempt))`,
the pre-jitter ("raw") backoff delay. -/
def raw_delay (base_delay max_delay : ℚ) (attempt : Nat) : ℚ :=
  min max_delay (base_delay * 2 ^ attempt)

/-- Lines 53-57 of the source: the delay actually slept at a given attempt,
i.e. the raw delay, multiplied by `0.5 + random.random() / 2` when `jitter`
is enabled. -/
def applied_delay (base_delay max_delay : ℚ) (jitter : Bool) (rand : Nat → ℚ)
    (attempt : Nat) : ℚ :=
  let delay := raw_delay base_delay max_delay attempt
  if jitter then delay * (1 / 2 + rand attempt / 2) else delay

/-- The sink used by the `if logger: ... else: print(msg)` branches. -/
def sinkOf (hasLogger : Bool) : Sink :=
  if hasLogger then Sink.logger else Sink.stdout

/-- The body of the `while attempt <= max_retries` loop of lines 40-65,
with `fuel = max_retries + 1 - attempt` remaining iterations.  `fuel = 0`
means the loop guard fails and the function returns `None`; inside an
iteration, `fuel = 1` is the source's `attempt == max_retries` test. -/
def retryLoop {ε α : Type} (op : Nat → Except ε α) (retryable : ε → Bool)
    (rand : Nat → ℚ) (base_delay max_delay : ℚ) (jitter hasLogger : Bool) :
    Nat → Nat → RetryTrace ε α
  | _, 0 => ⟨RetryResult.none, 0, [], []⟩
  | attempt, fuel + 1 =>
    match op attempt with
    | Except.ok v => ⟨RetryResult.ok v, 1, [], []⟩
    | Except.error e =>
      if retryable e then
        if fuel = 0 then
          ⟨RetryResult.raised e, 1, [], [(sinkOf hasLogger, LogEvent.error e)]⟩
        else
          let delay := applied_delay base_delay max_delay jitter rand attempt
          let rest := retryLoop op retryable rand base_delay max_delay jitter
            hasLogger (attempt + 1) fuel
          ⟨rest.result, rest.invocations + 1, delay :: rest.sleeps,
            (sinkOf hasLogger, LogEvent.warning attempt e delay) :: rest.logs⟩
      else
        ⟨RetryResult.raised e, 1, [], []⟩

/-- `retry_with_backoff(func, logger, max_retries, base_delay, max_delay,
exceptions, jitter)` of lines 8-65: start at `attempt = 0` with
`max_retries + 1 - 0` loop iterations available (`0` when
`max_retries < 0`, in which case the loop guard is false on entry). -/
def retry_with_backoff {ε α : Type} (op : Nat → Except ε α)
    (retryable : ε → Bool) (rand : Nat → ℚ) (max_retries : Int)
    (base_delay max_delay : ℚ) (jitter hasLogger : Bool) : RetryTrace ε α :=
  retryLoop op retryable rand base_delay max_delay jitter hasLogger 0
    (max_retries + 1).toNat

/-- Shifting the start of an indexed map over `List.range`. -/
theorem map_range_shift {β : Type} (f : Nat → β) (m a : Nat) :
    (List.range (m + 1)).map (fun j => f (a + j)) =
      f a :: (List.range m).map (fun j => f (a + 1 + j)) := by
  rw [List.range_succ_eq_map, List.map_cons, List.map_map, Nat.add_zero]
  refine congrArg (List.cons (f a)) (List.map_congr_left ?_)
  intro x _
  simp only [Function.comp_apply]
  congr 1
  omega

/-- Trace of the loop when every invocation fails with a retryable
exception: starting at `attempt = a` with `m + 1` iterations of fuel left,
the loop makes `m + 1` invocations, sleeps `m` times with the computed
backoff delays, logs `m` warnings followed by one terminal error, and
re-raises the exception of the final attempt `a + m`. -/
theorem retryLoop_allFail {ε α : Type} (op : Nat → Except ε α) (err : Nat → ε)
    (retryable : ε → Bool) (rand : Nat → ℚ) (base_delay max_delay : ℚ)
    (jitter hasLogger : Bool)
    (h1 : ∀ i, op i = Except.error (err i))
    (h2 : ∀ i, retryable (err i) = true) :
    ∀ (m a : Nat),
      retryLoop op retryable rand base_delay max_delay jitter hasLogger a (m + 1) =
        ⟨RetryResult.raised (err (a + m)), m + 1,
          (List.range m).map
            (fun j => applied_delay base_delay max_delay jitter rand (a + j)),
          ((List.range m).map (fun j =>
            (sinkOf hasLogger,
              LogEvent.warning (a + j) (err (a + j))
                (applied_delay base_delay max_delay jitter rand (a + j))))) ++
            [(sinkOf hasLogger, LogEvent.error (err (a + m)))]⟩ := by
  intro m
  induction m with
  | zero =>
    intro a
    simp [retryLoop, h1 a, h2 a]
  | succ m ih =>
    intro a
    have hstep :
        retryLoop op retryable rand base_delay max_delay jitter hasLogger a (m + 1 + 1) =
          ⟨(retryLoop op retryable rand base_delay max_delay jitter hasLogger
              (a + 1) (m + 1)).result,
            (retryLoop op retryable rand base_delay max_delay jitter hasLogger
              (a + 1) (m + 1)).invocations + 1,
            applied_delay base_delay max_delay jitter rand a ::
              (retryLoop op retryable rand base_delay max_delay jitter hasLogger
                (a + 1) (m + 1)).sleeps,
            (sinkOf hasLogger,
              LogEvent.warning a (err a)
                (applied_delay base_delay max_delay jitter rand a)) ::
              (retryLoop op retryable rand base_delay max_delay jitter hasLogger
                (a + 1) (m + 1)).logs⟩ := by
      simp [retryLoop, h1 a, h2 a]
    rw [show a + (m + 1) = a + 1 + m by omega]
    rw [hstep, ih (a + 1)]
    simp only [RetryTrace.mk.injEq]
    refine ⟨trivial, trivial, ?_, ?_⟩
    · exact
        (map_range_shift
          (fun i => applied_delay base_delay max_delay jitter rand i) m a).symm
    · rw [← List.cons_append]
      rw [map_range_shift
        (fun i =>
          (sinkOf hasLogger,
            LogEvent.warning i (err i)
              (applied_delay base_delay max_delay jitter rand i))) m a]

/-- Trace of the loop when the first `k` invocations fail with retryable
exceptions and invocation `k` succeeds, with enough fuel left (`k ≤ m`):
the loop makes `k + 1` invocations, sleeps `k` times, logs `k` warnings and
no error, and returns the operation's value unchanged. -/
theorem retryLoop_succeeds {ε α : Type} (op : Nat → Except ε α) (err : Nat → ε)
    (retryable : ε → Bool) (rand : Nat → ℚ) (base_delay max_delay : ℚ)
    (jitter hasLogger : Bool) (v : α) :
    ∀ (k a m : Nat), k ≤ m →
      (∀ i, i < k → op (a + i) = Except.error (err (a + i))) →
      (∀ i, i < k → retryable (err (a + i)) = true) →
      op (a + k) = Except.ok v →
      retryLoop op retryable rand base_delay max_delay jitter hasLogger a (m + 1) =
        ⟨RetryResult.ok v, k + 1,
          (List.range k).map
            (fun j => applied_delay base_delay max_delay jitter rand (a + j)),
          (List.range k).map (fun j =>
            (sinkOf hasLogger,
              LogEvent.warning (a + j) (err (a + j))
                (applied_delay base_delay max_delay jitter rand (a + j))))⟩ := by
  intro k
  induction k with
  | zero =>
    intro a m _ _ _ hok
    simp [retryLoop, show op a = Except.ok v by simpa using hok]
  | succ k ih =>
    intro a m hkm hfail hretry hok
    obtain ⟨m', rfl⟩ : ∃ m', m = m' + 1 := ⟨m - 1, by omega⟩
    have hfa : op a = Except.error (err a) := by simpa using hfail 0 (by omega)
    have hra : retryable (err a) = true := by simpa using hretry 0 (by omega)
    have hstep :
        retryLoop op retryable rand base_delay max_delay jitter hasLogger a (m' + 1 + 1) =
          ⟨(retryLoop op retryable rand base_delay max_delay jitter hasLogger
              (a + 1) (m' + 1)).result,
            (retryLoop op retryable rand base_delay max_delay jitter hasLogger
              (a + 1) (m' + 1)).invocations + 1,
            applied_delay base_delay max_delay jitter rand a ::
              (retryLoop op retryable rand base_delay max_delay jitter hasLogger
                (a + 1) (m' + 1)).sleeps,
            (sinkOf hasLogger,
              LogEvent.warning a (err a)
                (applied_delay base_delay max_delay jitter rand a)) ::
              (retryLoop op retryable rand base_delay max_delay jitter hasLogger
                (a + 1) (m' + 1)).logs⟩ := by
      simp [retryLoop, hfa, hra]
    have hfail' : ∀ i, i < k → op (a + 1 + i) = Except.error (err (a + 1 + i)) := by
      intro i hi
      have h := hfail (i + 1) (by omega)
      rwa [show a + (i + 1) = a + 1 + i by omega] at h
    have hretry' : ∀ i, i < k → retryable (err (a + 1 + i)) = true := by
      intro i hi
      have h := hretry (i + 1) (by omega)
      rwa [show a + (i + 1) = a + 1 + i by omega] at h
    have hok' : op (a + 1 + k) = Except.ok v := by
      rwa [show a + (k + 1) = a + 1 + k by omega] at hok
    rw [hstep, ih (a + 1) m' (by omega) hfail' hretry' hok']
    simp only [RetryTrace.mk.injEq]
    refine ⟨trivial, trivial, ?_, ?_⟩
    · exact
        (map_range_shift
          (fun i => applied_delay base_delay max_delay jitter rand i) k a).symm
    · exact
        (map_range_shift
          (fun i =>
            (sinkOf hasLogger,
              LogEvent.warning i (err i)
                (applied_delay base_delay max_delay jitter rand i))) k a).symm

/-- The presence of a logger only changes which sink each message is routed
to (line 47 / line 60's `if logger:` null-check): the run with `hL2` equals
the run with `hL1` with every log entry re-routed to `hL2`'s sink, all other
trace components unchanged. -/
theorem retryLoop_sink_map {ε α : Type} (op : Nat → Except ε α)
    (retryable : ε → Bool) (rand : Nat → ℚ) (base_delay max_delay : ℚ)
    (jitter : Bool) (hL1 hL2 : Bool) :
    ∀ (fuel a : Nat),
      retryLoop op retryable rand base_delay max_delay jitter hL2 a fuel =
        ⟨(retryLoop op retryable rand base_delay max_delay jitter hL1 a fuel).result,
          (retryLoop op retryable rand base_delay max_delay jitter hL1 a fuel).invocations,
          (retryLoop op retryable rand base_delay max_delay jitter hL1 a fuel).sleeps,
          ((retryLoop op retryable rand base_delay max_delay jitter hL1 a fuel).logs).map
            (fun p => (sinkOf hL2, p.2))⟩ := by
  intro fuel
  induction fuel with
  | zero =>
    intro a
    simp [retryLoop]
  | succ f ih =>
    intro a
    cases hop : op a with
    | ok v => simp [retryLoop, hop]
    | error e =>
      by_cases hr : retryable e
      · by_cases hf : f = 0
        · subst hf
          simp [retryLoop, hop, hr]
        · simp only [retryLoop, hop, hr, if_true, hf, if_false, ite_false]
          rw [ih (a + 1)]
          simp
      · simp [retryLoop, hop, hr]

/-- When jitter is disabled the random source is never consulted: the entire
trace is independent of `rand`. -/
theorem retryLoop_rand_irrelevant {ε α : Type} (op : Nat → Except ε α)
    (retryable : ε → Bool) (rand1 rand2 : Nat → ℚ) (base_delay max_delay : ℚ)
    (hasLogger : Bool) :
    ∀ (fuel a : Nat),
      retryLoop op retryable rand1 base_delay max_delay false hasLogger a fuel =
        retryLoop op retryable rand2 base_delay max_delay false hasLogger a fuel := by
  intro fuel
  induction fuel with
  | zero => intro a; rfl
  | succ f ih =>
    intro a
    cases hop : op a with
    | ok v => simp [retryLoop, hop]
    | error e =>
      by_cases hr : retryable e
      · by_cases hf : f = 0
        · subst hf
          simp [retryLoop, hop, hr]
        · simp only [retryLoop, hop, hr, if_true, hf, if_false, ite_false]
          rw [ih (a + 1)]
          simp [applied_delay]
      · simp [retryLoop, hop, hr]

/-- Whether a log call used error severity (`logger.error` / the
`Max retries reached` message) rather than warning severity. -/
def LogEvent.isError {ε : Type} : LogEvent ε → Bool
  | LogEvent.error _ => true
  | LogEvent.warning _ _ _ => false

/-- Claim C1: for every `max_retries = n ≥ 0`, an operation that always
fails with an exception matched by the catch filter is invoked exactly
`n + 1` times; the log trace is `n` warnings followed by exactly one
error-severity entry (emitted on the final attempt), and the final failure
is re-raised to the caller; for `n = 0` this gives 1 invocation, 0 sleeps
and only the terminal error log. -/
theorem C1_attempt_count_invariant {ε α : Type} (op : Nat → Except ε α)
    (err : Nat → ε) (retryable : ε → Bool) (rand : Nat → ℚ)
    (base_delay max_delay : ℚ) (jitter hasLogger : Bool) (n : Nat)
    (h1 : ∀ i, op i = Except.error (err i))
    (h2 : ∀ i, retryable (err i) = true) :
    (retry_with_backoff op retryable rand (n : Int) base_delay max_delay jitter
        hasLogger).result = RetryResult.raised (err n) ∧
    (retry_with_backoff op retryable rand (n : Int) base_delay max_delay jitter
        hasLogger).invocations = n + 1 ∧
    (retry_with_backoff op retryable rand (n : Int) base_delay max_delay jitter
        hasLogger).sleeps.length = n ∧
    (retry_with_backoff op retryable rand (n : Int) base_delay max_delay jitter
        hasLogger).logs =
      (List.range n).map (fun j =>
        (sinkOf hasLogger,
          LogEvent.warning j (err j)
            (applied_delay base_delay max_delay jitter rand j))) ++
        [(sinkOf hasLogger, LogEvent.error (err n))] ∧
    ((retry_with_backoff op retryable rand (n : Int) base_delay max_delay jitter
        hasLogger).logs.countP (fun p => LogEvent.isError p.2)) = 1 := by
  have htn : ((n : Int) + 1).toNat = n + 1 := by omega
  have h := retryLoop_allFail op err retryable rand base_delay max_delay jitter
    hasLogger h1 h2 n 0
  rw [retry_with_backoff, htn, h]
  refine ⟨by simp, by simp, by simp, by simp, ?_⟩
  simp [List.countP_append, List.countP_map, Function.comp, LogEvent.isError]

/-- Closed instance of C1 at `n = 0`: one invocation, no sleeps, and only
the terminal error log, printed to standard output. -/
theorem C1_attempt_count_invariant_witness :
    (retry_with_backoff (fun _ => (Except.error () : Except Unit Unit))
        (fun _ => true) (fun _ => 0) ((0 : Nat) : Int) 1 30 true false).result =
      RetryResult.raised () ∧
    (retry_with_backoff (fun _ => (Except.error () : Except Unit Unit))
        (fun _ => true) (fun _ => 0) ((0 : Nat) : Int) 1 30 true false).invocations = 1 ∧
    (retry_with_backoff (fun _ => (Except.error () : Except Unit Unit))
        (fun _ => true) (fun _ => 0) ((0 : Nat) : Int) 1 30 true false).sleeps.length = 0 ∧
    (retry_with_backoff (fun _ => (Except.error () : Except Unit Unit))
        (fun _ => true) (fun _ => 0) ((0 : Nat) : Int) 1 30 true false).logs =
      [(Sink.stdout, LogEvent.error ())] := by
  have h := C1_attempt_count_invariant
    (fun _ => (Except.error () : Except Unit Unit)) (fun _ => ())
    (fun _ => true) (fun _ => 0) 1 30 true false 0 (fun _ => rfl) (fun _ => rfl)
  exact ⟨h.1, h.2.1, h.2.2.1, by simpa [sinkOf] using h.2.2.2.1⟩

/-- Claim C2: during a run that is still retrying at attempt `a`, the delay
slept at attempt `a` is `applied_delay`; the pre-jitter (raw) delay is
`min(max_delay, base_delay * 2 ^ a)`; with jitter disabled the applied delay
equals the raw delay exactly, and with jitter enabled (given the random draw
lies in `[0,1)` and the policy's delays are positive) it lies in
`[raw / 2, raw]`. -/
theorem C2_backoff_bound {ε α : Type} (op : Nat → Except ε α) (err : Nat → ε)
    (retryable : ε → Bool) (rand : Nat → ℚ) (base_delay max_delay : ℚ)
    (jitter hasLogger : Bool) (n a : Nat)
    (hb : 0 < base_delay) (hm : 0 < max_delay)
    (hr0 : 0 ≤ rand a) (hr1 : rand a < 1)
    (h1 : ∀ i, op i = Except.error (err i))
    (h2 : ∀ i, retryable (err i) = true)
    (ha : a < n) :
    (retry_with_backoff op retryable rand (n : Int) base_delay max_delay jitter
        hasLogger).sleeps[a]? =
      some (applied_delay base_delay max_delay jitter rand a) ∧
    raw_delay base_delay max_delay a = min max_delay (base_delay * 2 ^ a) ∧
    applied_delay base_delay max_delay false rand a =
      raw_delay base_delay max_delay a ∧
    raw_delay base_delay max_delay a * (1 / 2) ≤
      applied_delay base_delay max_delay true rand a ∧
    applied_delay base_delay max_delay true rand a ≤
      raw_delay base_delay max_delay a := by
  have htn : ((n : Int) + 1).toNat = n + 1 := by omega
  obtain ⟨m, rfl⟩ : ∃ m, n = m + 1 := ⟨n - 1, by omega⟩
  have h := retryLoop_allFail op err retryable rand base_delay max_delay jitter
    hasLogger h1 h2 (m + 1) 0
  have hraw : 0 < raw_delay base_delay max_delay a := by
    have h2a : (0 : ℚ) < base_delay * 2 ^ a := by positivity
    exact lt_min hm h2a
  have happ : applied_delay base_delay max_delay true rand a =
      raw_delay base_delay max_delay a * (1 / 2 + rand a / 2) := by
    simp [applied_delay]
  refine ⟨?_, rfl, by simp [applied_delay], ?_, ?_⟩
  · rw [retry_with_backoff, htn, h]
    simp only []
    rw [List.getElem?_map, List.getElem?_range ha]
    simp
  · rw [happ]
    exact mul_le_mul_of_nonneg_left (by linarith) hraw.le
  · rw [happ]
    calc raw_delay base_delay max_delay a * (1 / 2 + rand a / 2) ≤
        raw_delay base_delay max_delay a * 1 :=
          mul_le_mul_of_nonneg_left (by linarith) hraw.le
      _ = raw_delay base_delay max_delay a := mul_one _

/-- Closed instance of C2: always-failing operation, `n = 2`, attempt
`a = 1`, `base_delay = 10`, `max_delay = 15`, jitter enabled with random
draw `1/2`. -/
theorem C2_backoff_bound_witness :
    (retry_with_backoff (fun _ => (Except.error () : Except Unit Unit))
        (fun _ => true) (fun _ => (1 / 2 : ℚ)) ((2 : Nat) : Int) 10 15 true
        true).sleeps[1]? =
      some (applied_delay 10 15 true (fun _ => (1 / 2 : ℚ)) 1) ∧
    raw_delay 10 15 1 = min 15 (10 * 2 ^ 1) ∧
    applied_delay 10 15 false (fun _ => (1 / 2 : ℚ)) 1 = raw_delay 10 15 1 ∧
    raw_delay 10 15 1 * (1 / 2) ≤
      applied_delay 10 15 true (fun _ => (1 / 2 : ℚ)) 1 ∧
    applied_delay 10 15 true (fun _ => (1 / 2 : ℚ)) 1 ≤ raw_delay 10 15 1 :=
  C2_backoff_bound (fun _ => (Except.error () : Except Unit Unit)) (fun _ => ())
    (fun _ => true) (fun _ => (1 / 2 : ℚ)) 10 15 true true 2 1 (by norm_num)
    (by norm_num) (by norm_num) (by norm_num) (fun _ => rfl) (fun _ => rfl)
    (by norm_num)

/-- Claim C3: if the operation fails retryably on attempts `0..k-1` and
succeeds on attempt `k ≤ n`, the executor makes exactly `k + 1`
invocations, sleeps exactly `k` times (all before the successful attempt),
logs only the `k` warnings, and returns the operation's value unchanged. -/
theorem C3_success_short_circuit {ε α : Type} (op : Nat → Except ε α)
    (err : Nat → ε) (retryable : ε → Bool) (rand : Nat → ℚ)
    (base_delay max_delay : ℚ) (jitter hasLogger : Bool) (v : α) (n k : Nat)
    (hk : k ≤ n)
    (hfail : ∀ i, i < k → op i = Except.error (err i))
    (hretry : ∀ i, i < k → retryable (err i) = true)
    (hok : op k = Except.ok v) :
    retry_with_backoff op retryable rand (n : Int) base_delay max_delay jitter
        hasLogger =
      ⟨RetryResult.ok v, k + 1,
        (List.range k).map
          (fun j => applied_delay base_delay max_delay jitter rand j),
        (List.range k).map (fun j =>
          (sinkOf hasLogger,
            LogEvent.warning j (err j)
              (applied_delay base_delay max_delay jitter rand j)))⟩ := by
  have htn : ((n : Int) + 1).toNat = n + 1 := by omega
  have h := retryLoop_succeeds op err retryable rand base_delay max_delay jitter
    hasLogger v k 0 n hk (by simpa using hfail) (by simpa using hretry)
    (by simpa using hok)
  rw [retry_with_backoff, htn, h]
  simp

/-- Closed instance of C3, the spec's concrete scenario: `base_delay = 1`,
`max_delay = 30`, `max_retries = 5`, jitter disabled, operation failing 3
times then succeeding: delays `1, 2, 4` in that order, 4 invocations, and
the success value returned unchanged. -/
theorem C3_success_short_circuit_witness :
    retry_with_backoff
        (fun i => if i < 3 then Except.error () else Except.ok (7 : Nat))
        (fun _ => true) (fun _ => 0) ((5 : Nat) : Int) 1 30 false true =
      ⟨RetryResult.ok 7, 4, [1, 2, 4],
        [(Sink.logger, LogEvent.warning 0 () 1),
         (Sink.logger, LogEvent.warning 1 () 2),
         (Sink.logger, LogEvent.warning 2 () 4)]⟩ := by
  have h := C3_success_short_circuit
    (fun i => if i < 3 then Except.error () else Except.ok (7 : Nat))
    (fun _ => ()) (fun _ => true) (fun _ => 0) 1 30 false true 7 5 3 (by omega)
    (fun i hi => by simp [hi]) (fun i _ => rfl) (by norm_num)
  rw [h]
  norm_num [List.range_succ, applied_delay, raw_delay, sinkOf, min_def]

/-- Claim C4: if the very first invocation fails with an exception not
matched by the catch filter, there is exactly 1 invocation, no sleep, no
log, and the failure propagates to the caller unchanged (assuming the loop
is entered at all, i.e. `max_retries ≥ 0`). -/
theorem C4_nonretryable_short_circuit {ε α : Type} (op : Nat → Except ε α)
    (e : ε) (retryable : ε → Bool) (rand : Nat → ℚ) (max_retries : Int)
    (base_delay max_delay : ℚ) (jitter hasLogger : Bool)
    (hmr : 0 ≤ max_retries) (h0 : op 0 = Except.error e)
    (hnr : retryable e = false) :
    retry_with_backoff op retryable rand max_retries base_delay max_delay
        jitter hasLogger =
      ⟨RetryResult.raised e, 1, [], []⟩ := by
  obtain ⟨m, hm⟩ : ∃ m, (max_retries + 1).toNat = m + 1 :=
    ⟨max_retries.toNat, by omega⟩
  rw [retry_with_backoff, hm]
  simp [retryLoop, h0, hnr]

/-- Closed instance of C4: a non-retryable first failure with
`max_retries = 5`. -/
theorem C4_nonretryable_short_circuit_witness :
    retry_with_backoff (fun _ => (Except.error () : Except Unit Unit))
        (fun _ => false) (fun _ => 0) 5 1 30 true true =
      ⟨RetryResult.raised (), 1, [], []⟩ :=
  C4_nonretryable_short_circuit (fun _ => (Except.error () : Except Unit Unit))
    () (fun _ => false) (fun _ => 0) 5 1 30 true true (by norm_num) rfl rfl

/-- Claim C5 (the spec's clamp scenario): `base_delay = 10`,
`max_delay = 15`, `max_retries = 3`, jitter disabled, every attempt fails:
the delays slept are `10, 15, 15` (the last two clamped from 20 and 40),
there are 4 invocations in total, and the last failure is re-raised after
the terminal error log. -/
theorem C5_clamp_scenario :
    retry_with_backoff (fun _ => (Except.error () : Except Unit Unit))
        (fun _ => true) (fun _ => 0) 3 10 15 false false =
      ⟨RetryResult.raised (), 4, [10, 15, 15],
        [(Sink.stdout, LogEvent.warning 0 () 10),
         (Sink.stdout, LogEvent.warning 1 () 15),
         (Sink.stdout, LogEvent.warning 2 () 15),
         (Sink.stdout, LogEvent.error ())]⟩ := by
  norm_num [retry_with_backoff, retryLoop, applied_delay, raw_delay, sinkOf,
    min_def]

/-- Counterexample to claim C6: the source performs no construction-time
validation.  With the invalid configuration `max_retries = -1` the call is
accepted and completes normally — the operation is never invoked, nothing
is logged, no failure is surfaced, and `None` is returned — rather than the
configuration being rejected before any retry attempt runs. -/
theorem C6_validation_counterexample :
    retry_with_backoff (fun _ => (Except.error () : Except Unit Unit))
        (fun _ => true) (fun _ => 0) (-1) 1 30 true true =
      ⟨RetryResult.none, 0, [], []⟩ ∧
    (retry_with_backoff (fun _ => (Except.error () : Except Unit Unit))
        (fun _ => true) (fun _ => 0) (-1) 1 30 true true).result ≠
      RetryResult.raised () := by
  have h : retry_with_backoff (fun _ => (Except.error () : Except Unit Unit))
        (fun _ => true) (fun _ => 0) (-1) 1 30 true true =
      (⟨RetryResult.none, 0, [], []⟩ : RetryTrace Unit Unit) := by
    norm_num [retry_with_backoff, retryLoop]
  rw [h]
  exact ⟨rfl, by simp⟩

/-- Claim C6 as amended: the retry configuration is never validated.  An
invalid `max_retries = -1` is accepted and the call silently returns `None`
after zero invocations, and an invalid `base_delay = 0` is accepted and
used as-is (here with `max_retries = 1`: the loop runs normally, sleeping
the degenerate delay `0`). -/
theorem C6_no_validation :
    retry_with_backoff (fun _ => (Except.error () : Except Unit Unit))
        (fun _ => true) (fun _ => 0) (-1) 1 30 true true =
      ⟨RetryResult.none, 0, [], []⟩ ∧
    retry_with_backoff (fun _ => (Except.error () : Except Unit Unit))
        (fun _ => true) (fun _ => 0) 1 0 30 false false =
      ⟨RetryResult.raised (), 2, [0],
        [(Sink.stdout, LogEvent.warning 0 () 0),
         (Sink.stdout, LogEvent.error ())]⟩ := by
  constructor
  · norm_num [retry_with_backoff, retryLoop]
  · norm_num [retry_with_backoff, retryLoop, applied_delay, raw_delay, sinkOf,
      min_def]

/-- Re-routing every log entry to a fixed sink makes the first components
constant. -/
theorem map_fst_resink {ε : Type} (s : Sink) (l : List (Sink × LogEvent ε)) :
    (l.map (fun p => (s, p.2))).map Prod.fst = List.replicate l.length s := by
  induction l with
  | nil => rfl
  | cons x xs ih => simp [ih, List.replicate_succ]

/-- Claim C7: the log events produced are identical whether a logger is
supplied or not — only the routing differs.  Without a logger every message
goes to the fallback sink (standard output, the `print` branch) instead of
being discarded, and the rest of the behaviour (result, invocation count,
sleeps) is unchanged. -/
theorem C7_logger_fallback {ε α : Type} (op : Nat → Except ε α)
    (retryable : ε → Bool) (rand : Nat → ℚ) (max_retries : Int)
    (base_delay max_delay : ℚ) (jitter : Bool) :
    (retry_with_backoff op retryable rand max_retries base_delay max_delay
        jitter false).logs.map Prod.snd =
      (retry_with_backoff op retryable rand max_retries base_delay max_delay
        jitter true).logs.map Prod.snd ∧
    (retry_with_backoff op retryable rand max_retries base_delay max_delay
        jitter false).logs.map Prod.fst =
      List.replicate
        (retry_with_backoff op retryable rand max_retries base_delay max_delay
          jitter false).logs.length Sink.stdout ∧
    (retry_with_backoff op retryable rand max_retries base_delay max_delay
        jitter true).logs.map Prod.fst =
      List.replicate
        (retry_with_backoff op retryable rand max_retries base_delay max_delay
          jitter true).logs.length Sink.logger ∧
    (retry_with_backoff op retryable rand max_retries base_delay max_delay
        jitter false).result =
      (retry_with_backoff op retryable rand max_retries base_delay max_delay
        jitter true).result ∧
    (retry_with_backoff op retryable rand max_retries base_delay max_delay
        jitter false).invocations =
      (retry_with_backoff op retryable rand max_retries base_delay max_delay
        jitter true).invocations ∧
    (retry_with_backoff op retryable rand max_retries base_delay max_delay
        jitter false).sleeps =
      (retry_with_backoff op retryable rand max_retries base_delay max_delay
        jitter true).sleeps := by
  have h0 := retryLoop_sink_map op retryable rand base_delay max_delay jitter
    true false ((max_retries + 1).toNat) 0
  have h1 := retryLoop_sink_map op retryable rand base_delay max_delay jitter
    true true ((max_retries + 1).toNat) 0
  rw [retry_with_backoff, retry_with_backoff, h0, h1]
  refine ⟨?_, ?_, ?_, rfl, rfl, rfl⟩
  · simp [List.map_map, Function.comp]
  · simpa [sinkOf] using
      map_fst_resink (sinkOf false)
        ((retryLoop op retryable rand base_delay max_delay jitter true 0
          (max_retries + 1).toNat).logs)
  · simpa [sinkOf] using
      map_fst_resink (sinkOf true)
        ((retryLoop op retryable rand base_delay max_delay jitter true 0
          (max_retries + 1).toNat).logs)

/-- Claim C9: with `max_retries < 0` the loop guard `attempt <= max_retries`
is false on entry, so the operation is never invoked, nothing is slept or
logged, and the function returns `None` without raising. -/
theorem C9_negative_max_retries {ε α : Type} (op : Nat → Except ε α)
    (retryable : ε → Bool) (rand : Nat → ℚ) (max_retries : Int)
    (base_delay max_delay : ℚ) (jitter hasLogger : Bool)
    (hmr : max_retries < 0) :
    retry_with_backoff op retryable rand max_retries base_delay max_delay
        jitter hasLogger =
      ⟨RetryResult.none, 0, [], []⟩ := by
  have h : (max_retries + 1).toNat = 0 := by omega
  rw [retry_with_backoff, h]
  rfl

/-- Closed instance of C9 at `max_retries = -1`. -/
theorem C9_negative_max_retries_witness :
    retry_with_backoff (fun _ => (Except.ok 3 : Except Unit Nat))
        (fun _ => true) (fun _ => 0) (-1) 1 30 true false =
      ⟨RetryResult.none, 0, [], []⟩ :=
  C9_negative_max_retries (fun _ => (Except.ok 3 : Except Unit Nat))
    (fun _ => true) (fun _ => 0) (-1) 1 30 true false (by norm_num)

/-- Claim C10: with jitter disabled the random source is never consulted:
two runs differing only in their random values produce identical traces
(same sleep delays, same logs, same result). -/
theorem C10_no_jitter_deterministic {ε α : Type} (op : Nat → Except ε α)
    (retryable : ε → Bool) (rand1 rand2 : Nat → ℚ) (max_retries : Int)
    (base_delay max_delay : ℚ) (hasLogger : Bool) :
    retry_with_backoff op retryable rand1 max_retries base_delay max_delay
        false hasLogger =
      retry_with_backoff op retryable rand2 max_retries base_delay max_delay
        false hasLogger := by
  rw [retry_with_backoff, retry_with_backoff]
  exact retryLoop_rand_irrelevant op retryable rand1 rand2 base_delay max_delay
    hasLogger ((max_retries + 1).toNat) 0

/-- Lines 134-144: the hardcoded fallback NASDAQ-100 ticker list returned by
`get_ndaq_tickers_fallback` (85 entries). -/
def get_ndaq_tickers_fallback : List String :=
  [
    "AAPL", "MSFT", "GOOGL", "GOOG", "AMZN", "NVDA", "META", "TSLA", "NFLX", "ADBE",
    "CRM", "PEP", "COST", "AVGO", "CSCO", "TMUS", "INTC", "AMD", "QCOM", "INTU",
    "HON", "ISRG", "GILD", "MDLZ", "ADP", "PYPL", "REGN", "VRTX", "ABNB", "KLAC",
    "SNPS", "PANW", "CDNS", "MU", "ORLY", "MNST", "KDP", "LRCX", "ASML", "CHTR",
    "MAR", "MELI", "FTNT", "CTAS", "ODFL", "PAYX", "ROST", "IDXX", "BIIB", "FAST",
    "VRSK", "WDAY", "DXCM", "CPRT", "XEL", "PCAR", "ALGN", "SIRI", "MRVL", "ZS",
    "LCID", "JD", "PDD", "BIDU", "NTES", "TCOM", "WBA", "EA", "UBER", "LYFT",
    "DASH", "RIVN", "PLTR", "SNOW", "CRWD", "OKTA", "TEAM", "SPOT", "PINS", "SNAP",
    "BYND", "PTON", "DOCU", "RBLX", "ZM"
  ]

/-- `set(tickers)` of line 108: keep one copy of each element (order is
irrelevant because the result is sorted immediately afterwards). -/
def dedupKeep (l : List String) : List String :=
  l.foldl (fun acc a => if a ∈ acc then acc else acc ++ [a]) []

/-- Ascending insertion used by `sortAsc`. -/
def insertAsc (a : String) : List String → List String
  | [] => [a]
  | b :: bs => if a ≤ b then a :: b :: bs else b :: insertAsc a bs

/-- `sorted(...)` of line 108: an ascending sort of the list. -/
def sortAsc : List String → List String
  | [] => []
  | x :: xs => insertAsc x (sortAsc xs)

/-- Line 108: `tickers = sorted(list(set(tickers)))`. -/
def dedupSort (l : List String) : List String :=
  sortAsc (dedupKeep l)

/-- `get_ndaq_tickers` of lines 68-121, starting from the scraped token
list: the argument is `Except.error` when any exception was raised during
the HTTP fetch or HTML parsing (caught by the `except Exception` handler of
lines 118-121), and `Except.ok toks` carries the token list accumulated by
the cell-scanning loop of lines 94-105.  The function deduplicates and
sorts the tokens, returns them when their count lies in `[80, 120]`
(line 111), and otherwise returns the hardcoded fallback list.  It is
total: every case returns a list rather than raising. -/
def get_ndaq_tickers (scraped : Except Unit (List String)) : List String :=
  match scraped with
  | Except.error _ => get_ndaq_tickers_fallback
  | Except.ok toks =>
    let tickers := dedupSort toks
    if 80 ≤ tickers.length ∧ tickers.length ≤ 120 then tickers
    else get_ndaq_tickers_fallback

/-- Claim C8: `get_ndaq_tickers` returns the deduplicated, sorted token
list exactly when that list's length lies in `[80, 120]`; for a length
outside the range, and for any exception during fetching or parsing, it
returns the hardcoded fallback list (and, being total, never raises). -/
theorem C8_ticker_validation (toks : List String) :
    (get_ndaq_tickers (Except.ok toks) = dedupSort toks ↔
      80 ≤ (dedupSort toks).length ∧ (dedupSort toks).length ≤ 120) ∧
    (¬(80 ≤ (dedupSort toks).length ∧ (dedupSort toks).length ≤ 120) →
      get_ndaq_tickers (Except.ok toks) = get_ndaq_tickers_fallback) ∧
    get_ndaq_tickers (Except.error ()) = get_ndaq_tickers_fallback := by
  have hlen : get_ndaq_tickers_fallback.length = 85 := rfl
  refine ⟨⟨?_, ?_⟩, ?_, rfl⟩
  · intro h
    by_cases hc : 80 ≤ (dedupSort toks).length ∧ (dedupSort toks).length ≤ 120
    · exact hc
    · exfalso
      rw [get_ndaq_tickers] at h
      simp only [if_neg hc] at h
      have hl := congrArg List.length h
      rw [hlen] at hl
      omega
  · intro hc
    simp [get_ndaq_tickers, hc]
  · intro hc
    simp [get_ndaq_tickers, hc]

/-- Closed instance of C8: a single scraped token is far below the accepted
range, so the fallback list is returned. -/
theorem C8_ticker_validation_witness :
    get_ndaq_tickers (Except.ok ["AAPL"]) = get_ndaq_tickers_fallback :=
  (C8_ticker_validation ["AAPL"]).2.1 (by decide)
